import Mathlib

/-
Verification of the ETL pipeline (ETL_pipeline.py): a shallow embedding of the
Normalizer (clean_and_normalize_data) and the Semantic Layer Builder
(create_semantic_layer), with theorems settling the specified properties.

Modelling conventions:
- A pandas cell is a Value: null (None/NaN), a string, or a number (REAL is
  modelled as the rationals).
- A DataFrame row is a List Value (the Normalizer is schema-generic, exactly as
  the Python function is), or a typed record for the three clean tables whose
  schemas are fixed by create_clean_data_tables.
- pandas drop_duplicates keeps the first occurrence of each duplicate; this is
  dedupFirst below. pandas Series.unique also keeps first occurrences.
- pandas merge(how="left") keeps every left row; a left row with no key match
  yields one output row whose right-hand columns are null, and a left row with
  n matches yields n output rows, in left-then-right order.
- groupby(...).agg with a join lambda aggregates each group; the output row
  order (pandas sorts group keys) is irrelevant to every property below, so the
  embedding lists groups in first-appearance order.
-/

set_option autoImplicit false

namespace ETL

/-- A pandas cell: missing value (None/NaN), a string, or a numeric value. -/
inductive Value where
  | null
  | str (s : String)
  | num (q : ℚ)
  deriving DecidableEq, Repr

/-- Keep the first occurrence of every element not already in seen, dropping
later duplicates. -/
def dedupFirstAux {α : Type} [DecidableEq α] (seen : List α) : List α → List α
  | [] => []
  | x :: xs =>
    if x ∈ seen then dedupFirstAux seen xs
    else x :: dedupFirstAux (x :: seen) xs

/-- Keep the first occurrence of every element, dropping later duplicates.
This is the behaviour of pandas drop_duplicates (keep="first", the default)
and of pandas Series.unique. -/
def dedupFirst {α : Type} [DecidableEq α] (l : List α) : List α :=
  dedupFirstAux [] l

/-- ASCII whitespace, as stripped by Python str.strip on the data at hand. -/
def isSpaceChar (c : Char) : Bool := c = ' ' || c = '\t' || c = '\n' || c = '\r'

/-- ASCII lowercasing of one character, as Python str.lower acts on the
identifiers and symbols in these tables. -/
def lowerChar (c : Char) : Char :=
  if 'A' ≤ c && c ≤ 'Z' then Char.ofNat (c.toNat + 32) else c

/-- The per-cell string normalization of clean_and_normalize_data, line 85:
x.strip().lower() — strip leading and trailing whitespace, then lowercase. -/
def normStr (s : String) : String :=
  String.mk
    ((((s.data.dropWhile isSpaceChar).reverse.dropWhile isSpaceChar).reverse).map
      lowerChar)

/-- applymap cell function: strings are trimmed and lowercased, everything
else passes through unchanged. -/
def normalizeCell : Value → Value
  | .str s => .str (normStr s)
  | v => v

/-- clean_and_normalize_data (ETL_pipeline.py lines 82-88):
df.dropna().drop_duplicates().applymap(strip-and-lower strings).
dropna drops every row containing a null; drop_duplicates then collapses
exact duplicates of the remaining raw rows; applymap normalizes cells last. -/
def clean_and_normalize_data (rows : List (List Value)) : List (List Value) :=
  (dedupFirst ((rows.filter (fun r => decide (Value.null ∉ r))))).map
    (fun r => r.map normalizeCell)

/-- A row of the clean_uniprot table, schema per create_clean_data_tables
(ETL_pipeline.py lines 100-109). All columns are TEXT. -/
structure ProteinRecord where
  primary_accession : String
  recommended_protein_name : String
  primary_gene_name : String
  species_common_name : String
  string_dbReference : String
  opentargets_dbReference : String
  sequence_length : String
  sequence_mass : String
  deriving DecidableEq, Repr

/-- A row of the clean_string table (line 110): combined_score is REAL. -/
structure InteractionEdge where
  protein1 : String
  protein2 : String
  combined_score : ℚ
  deriving DecidableEq, Repr

/-- A row of the clean_targets table (line 111). -/
structure TargetRecord where
  id : String
  approvedSymbol : String
  biotype : String
  deriving DecidableEq, Repr

/-- A row of the semantic_layer table (lines 112-119): the groupby keys plus
the two comma-joined aggregate strings. -/
structure SemanticRow where
  primary_accession : String
  recommended_protein_name : String
  primary_gene_name : String
  species_common_name : String
  disease : String
  associated_proteins : String
  deriving DecidableEq, Repr

/-- Result row of the first left merge (line 143): the uniprot columns plus
the edge columns, which are null when the protein matched no edge. -/
structure Joined1 extends ProteinRecord where
  protein1 : Option String
  protein2 : Option String
  combined_score : Option ℚ
  deriving DecidableEq, Repr

/-- Result row of the second left merge (line 145): the Joined1 columns plus
the target columns, null when opentargets_dbReference matched no target id. -/
structure Joined2 extends Joined1 where
  id : Option String
  approvedSymbol : Option String
  biotype : Option String
  deriving DecidableEq, Repr

/-- Left merge of the uniprot rows with the (already filtered) edge rows on
string_dbReference = protein1 (line 143): each protein contributes one row
per matching edge, or a single all-null-edge row when nothing matches. -/
def merge1 (prots : List ProteinRecord) (edges : List InteractionEdge) :
    List Joined1 :=
  prots.flatMap (fun p =>
    let ms := edges.filter (fun e => decide (e.protein1 = p.string_dbReference))
    if ms = [] then [⟨p, none, none, none⟩]
    else ms.map (fun e => ⟨p, some e.protein1, some e.protein2, some e.combined_score⟩))

/-- Left merge of the Joined1 rows with the target rows on
opentargets_dbReference = id (line 145). -/
def merge2 (rows : List Joined1) (targets : List TargetRecord) :
    List Joined2 :=
  rows.flatMap (fun r =>
    let ms := targets.filter (fun t => decide (t.id = r.opentargets_dbReference))
    if ms = [] then [⟨r, none, none, none⟩]
    else ms.map (fun t => ⟨r, some t.id, some t.approvedSymbol, some t.biotype⟩))

/-- The groupby key tuple of line 146. -/
def GroupKey : Type := String × String × String × String

instance : DecidableEq GroupKey := by
  unfold GroupKey
  infer_instance

/-- Group key of a uniprot row. -/
def keyOfP (p : ProteinRecord) : GroupKey :=
  (p.primary_accession, p.recommended_protein_name, p.primary_gene_name,
   p.species_common_name)

/-- Group key of a fully joined row (the four groupby columns of line 146). -/
def keyOf2 (r : Joined2) : GroupKey :=
  keyOfP r.toProteinRecord

/-- The aggregation lambda of lines 148-149 before the string join:
x.dropna().unique() — drop the nulls, keep first occurrences of the rest. -/
def aggEntries (xs : List (Option String)) : List String :=
  dedupFirst (xs.filterMap id)

/-- One group of the groupby, with its aggregate entry lists. -/
structure SemanticAgg where
  primary_accession : String
  recommended_protein_name : String
  primary_gene_name : String
  species_common_name : String
  diseaseList : List String
  associatedList : List String
  deriving DecidableEq, Repr

/-- The fully joined frame of lines 141-145: filter edges to
combined_score > 200, left-merge uniprot with the filtered edges, then
left-merge with targets. -/
def joinedRows (prots : List ProteinRecord) (edges : List InteractionEdge)
    (targets : List TargetRecord) : List Joined2 :=
  merge2
    (merge1 prots (edges.filter (fun e => decide (200 < e.combined_score))))
    targets

/-- The filter-join-join-group-aggregate pipeline of create_semantic_layer
(lines 141-151), stopping just before the entry lists are comma-joined:
group the joined frame by the four key columns and collect the distinct
non-null approvedSymbol and protein2 values of each group in first-seen
order. -/
def semantic_groups (prots : List ProteinRecord) (edges : List InteractionEdge)
    (targets : List TargetRecord) : List SemanticAgg :=
  (dedupFirst ((joinedRows prots edges targets).map keyOf2)).map (fun k =>
    let grp := (joinedRows prots edges targets).filter
      (fun r => decide (keyOf2 r = k))
    ⟨k.1, k.2.1, k.2.2.1, k.2.2.2,
     aggEntries (grp.map (fun r => r.approvedSymbol)),
     aggEntries (grp.map (fun r => r.protein2))⟩)

/-- The group key tuple a SemanticAgg was built from. -/
def keyOfAgg (g : SemanticAgg) : GroupKey :=
  (g.primary_accession, g.recommended_protein_name, g.primary_gene_name,
   g.species_common_name)

/-- The string join of lines 148-149: ", ".join(entries). -/
def joinComma : List String → String
  | [] => ""
  | [x] => x
  | x :: y :: xs => x ++ ", " ++ joinComma (y :: xs)

/-- Comma-join each aggregate entry list, as in ", ".join(...) on lines
148-149, producing the stored SemanticRow. -/
def renderRow (g : SemanticAgg) : SemanticRow :=
  ⟨g.primary_accession, g.recommended_protein_name, g.primary_gene_name,
   g.species_common_name,
   joinComma g.diseaseList,
   joinComma g.associatedList⟩

/-- create_semantic_layer (lines 136-155) as a function of the three stored
clean tables: the SemanticRow set written to the semantic_layer table. -/
def create_semantic_layer (prots : List ProteinRecord)
    (edges : List InteractionEdge) (targets : List TargetRecord) :
    List SemanticRow :=
  (semantic_groups prots edges targets).map renderRow

/-- The four tables of the SQLite store (create_clean_data_tables). -/
structure Store where
  clean_uniprot : List ProteinRecord
  clean_string : List InteractionEdge
  clean_targets : List TargetRecord
  semantic_layer : List SemanticRow
  deriving DecidableEq

/-- One run of create_semantic_layer against the store: read the three clean
tables, compute the semantic rows, and replace the semantic_layer table
(insert_cleaned_data uses to_sql with if_exists="replace"). -/
def run_semantic_layer (st : Store) : Store :=
  { st with semantic_layer :=
      create_semantic_layer st.clean_uniprot st.clean_string st.clean_targets }

/-- Column names of the DataFrame built by fetch_uniprot_data
(ETL_pipeline.py lines 41-52). clean_and_normalize_data does not rename
columns, and insert_cleaned_data writes with to_sql(if_exists="replace"),
which replaces the clean_uniprot table with exactly these columns; read_sql
in create_semantic_layer then returns them unchanged. -/
def uniprot_fetch_columns : List String :=
  ["Primary Accession", "Recommended Protein Name", "Species Common Name",
   "STRING dbReference", "OpenTargets dbReference", "Sequence Length",
   "Sequence Mass"]

/-- The clean_uniprot column names create_semantic_layer dereferences, in
evaluation order: left_on of the first merge (line 143), left_on of the
second merge (line 145), then the four groupby keys (line 146). -/
def semantic_layer_uniprot_keys : List String :=
  ["string_dbReference", "opentargets_dbReference", "primary_accession",
   "recommended_protein_name", "primary_gene_name", "species_common_name"]

/-- Modelled pandas behaviour: dereferencing a column that is absent from the
frame raises KeyError naming that column; the first requested key missing
from the column list is the one the build fails on, and none means every
lookup succeeds. -/
def firstMissingKey (cols keysNeeded : List String) : Option String :=
  keysNeeded.find? (fun k => !(cols.contains k))

/-- End-to-end scenario protein P1: stored clean_uniprot row after
clean_and_normalize_data lowercases every field. -/
def c2protein : ProteinRecord :=
  ⟨normStr "P1", normStr "Protein1", normStr "G1", normStr "Human",
   normStr "S1", normStr "O1", normStr "350", normStr "39000"⟩

/-- End-to-end scenario edges (S1, S2, 900) and (S1, S3, 100) after
normalization. -/
def c2edges : List InteractionEdge :=
  [⟨normStr "S1", normStr "S2", 900⟩, ⟨normStr "S1", normStr "S3", 100⟩]

/-- End-to-end scenario target (O1, BRCA1) after normalization. -/
def c2targets : List TargetRecord :=
  [⟨normStr "O1", normStr "BRCA1", normStr "protein_coding"⟩]

/-- The single group the builder forms on the scenario above. -/
def c2group : SemanticAgg :=
  ⟨"p1", "protein1", "g1", "human", ["brca1"], ["s2"]⟩

/-- A protein whose two foreign-key fields are both the empty string. -/
def c3protein : ProteinRecord := ⟨"p3", "n", "g", "h", "", "", "1", "2"⟩

/-- A protein used to exhibit empty-string aggregate entries. -/
def c4protein : ProteinRecord := ⟨"p4", "n", "g", "h", "s1", "o1", "1", "2"⟩

/-- Two targets sharing the id o1, one of which has an empty approvedSymbol:
a value that x.dropna() does not remove. -/
def c4targets : List TargetRecord := [⟨"o1", "", "b"⟩, ⟨"o1", "x", "b"⟩]

theorem mem_dedupFirstAux {α : Type} [DecidableEq α] (l : List α)
    (seen : List α) (a : α) :
    a ∈ dedupFirstAux seen l ↔ a ∈ l ∧ a ∉ seen := by
  induction l generalizing seen with
  | nil => simp [dedupFirstAux]
  | cons x xs ih =>
    rw [dedupFirstAux]
    by_cases hx : x ∈ seen
    · rw [if_pos hx, ih]
      simp only [List.mem_cons]
      constructor
      · rintro ⟨h1, h2⟩
        exact ⟨Or.inr h1, h2⟩
      · rintro ⟨rfl | h1, h2⟩
        · exact absurd hx h2
        · exact ⟨h1, h2⟩
    · rw [if_neg hx]
      simp only [List.mem_cons, ih, List.mem_cons]
      constructor
      · rintro (rfl | ⟨h1, h2⟩)
        · exact ⟨Or.inl rfl, hx⟩
        · exact ⟨Or.inr h1, fun hs => h2 (Or.inr hs)⟩
      · rintro ⟨rfl | h1, h2⟩
        · exact Or.inl rfl
        · by_cases hax : a = x
          · exact Or.inl hax
          · exact Or.inr ⟨h1, fun hs => hs.elim hax h2⟩

theorem mem_dedupFirst {α : Type} [DecidableEq α] (l : List α) (a : α) :
    a ∈ dedupFirst l ↔ a ∈ l := by
  simp [dedupFirst, mem_dedupFirstAux]

theorem nodup_dedupFirstAux {α : Type} [DecidableEq α] (l : List α)
    (seen : List α) : (dedupFirstAux seen l).Nodup := by
  induction l generalizing seen with
  | nil => simp [dedupFirstAux]
  | cons x xs ih =>
    rw [dedupFirstAux]
    by_cases hx : x ∈ seen
    · rw [if_pos hx]
      exact ih seen
    · rw [if_neg hx]
      refine List.nodup_cons.2 ⟨?_, ih (x :: seen)⟩
      intro hmem
      exact ((mem_dedupFirstAux _ _ _).1 hmem).2 (List.mem_cons_self x seen)

theorem nodup_dedupFirst {α : Type} [DecidableEq α] (l : List α) :
    (dedupFirst l).Nodup :=
  nodup_dedupFirstAux l []

theorem mem_merge1 {prots : List ProteinRecord} {es : List InteractionEdge}
    {r : Joined1} (h : r ∈ merge1 prots es) :
    r.toProteinRecord ∈ prots ∧
      (r.protein2 = none ∨
        ∃ e ∈ es, e.protein1 = r.string_dbReference ∧
          r.protein2 = some e.protein2) := by
  simp only [merge1, List.mem_flatMap] at h
  obtain ⟨p, hp, hr⟩ := h
  by_cases hms :
      es.filter (fun e => decide (e.protein1 = p.string_dbReference)) = []
  · rw [if_pos hms, List.mem_singleton] at hr
    subst hr
    exact ⟨hp, Or.inl rfl⟩
  · rw [if_neg hms, List.mem_map] at hr
    obtain ⟨e, he, hre⟩ := hr
    rw [List.mem_filter] at he
    obtain ⟨hees, hekey⟩ := he
    subst hre
    exact ⟨hp, Or.inr ⟨e, hees, of_decide_eq_true hekey, rfl⟩⟩

theorem mem_merge2 {rows : List Joined1} {ts : List TargetRecord}
    {r : Joined2} (h : r ∈ merge2 rows ts) : r.toJoined1 ∈ rows := by
  simp only [merge2, List.mem_flatMap] at h
  obtain ⟨r1, hr1, hr⟩ := h
  by_cases hms :
      ts.filter (fun t => decide (t.id = r1.opentargets_dbReference)) = []
  · rw [if_pos hms, List.mem_singleton] at hr
    subst hr
    exact hr1
  · rw [if_neg hms, List.mem_map] at hr
    obtain ⟨t, ht, hrt⟩ := hr
    subst hrt
    exact hr1

theorem merge1_no_match {p : ProteinRecord} {es : List InteractionEdge}
    (h : ∀ e ∈ es, e.protein1 ≠ p.string_dbReference) :
    merge1 [p] es = [⟨p, none, none, none⟩] := by
  simp only [merge1, List.flatMap_cons, List.flatMap_nil, List.append_nil]
  rw [if_pos]
  exact List.filter_eq_nil_iff.2 (fun e he => by simp [h e he])

theorem merge2_no_match {r : Joined1} {ts : List TargetRecord}
    (h : ∀ t ∈ ts, t.id ≠ r.opentargets_dbReference) :
    merge2 [r] ts = [⟨r, none, none, none⟩] := by
  simp only [merge2, List.flatMap_cons, List.flatMap_nil, List.append_nil]
  rw [if_pos]
  exact List.filter_eq_nil_iff.2 (fun t ht => by simp [h t ht])

theorem semantic_groups_spec {prots : List ProteinRecord}
    {edges : List InteractionEdge} {targets : List TargetRecord}
    {g : SemanticAgg} (h : g ∈ semantic_groups prots edges targets) :
    g.diseaseList = aggEntries
        (((joinedRows prots edges targets).filter
          (fun r => decide (keyOf2 r = keyOfAgg g))).map
            (fun r => r.approvedSymbol)) ∧
    g.associatedList = aggEntries
        (((joinedRows prots edges targets).filter
          (fun r => decide (keyOf2 r = keyOfAgg g))).map
            (fun r => r.protein2)) := by
  simp only [semantic_groups, List.mem_map] at h
  obtain ⟨k, hk, rfl⟩ := h
  exact ⟨rfl, rfl⟩

/-- C1: the claim says the Semantic Layer Builder never fails on tables the
pipeline itself stores. The tables the pipeline stores do not satisfy this:
fetch_uniprot_data emits the columns of uniprot_fetch_columns, which contain
neither string_dbReference (the first merge key of line 143, spelled
"STRING dbReference" with a space by the fetch step) nor primary_gene_name
(a groupby key of line 146 that the fetch step never extracts), so the very
first column dereference of create_semantic_layer raises KeyError on every
run of the pipeline. The clean_uniprot DDL schema and the unit tests both
use the snake_case names, so the fetch step is the slip. -/
theorem claim_C1 :
    firstMissingKey uniprot_fetch_columns semantic_layer_uniprot_keys =
      some "string_dbReference" := by decide

/-- C2: for protein P1 with string_dbReference S1 and opentargets_dbReference
O1, edges (S1, S2, 900) and (S1, S3, 100), and target (O1, BRCA1) — all
stored after normalization — the builder emits one SemanticRow for P1 with
associated_proteins "s2" (S3 excluded, score 100 is not above 200) and
disease "brca1". -/
theorem claim_C2 :
    create_semantic_layer [c2protein] c2edges c2targets =
      [⟨"p1", "protein1", "g1", "human", "brca1", "s2"⟩] := by decide

/-- C3 counterexample: a protein with both foreign-key fields empty does NOT
always aggregate to two empty fields. If the interaction table holds an edge
with protein1 = "" (score 900) and the target table a record with id = "",
pandas merge matches empty string against empty string like any other value,
and the SemanticRow comes out with disease "y" and associated_proteins "x" —
the empty key is treated as an ordinary join key, against the claim. -/
theorem counterexample_C3 :
    create_semantic_layer [c3protein] [⟨"", "x", 900⟩] [⟨"", "y", "b"⟩] =
        [⟨"p3", "n", "g", "h", "y", "x"⟩] ∧
      ¬ ∀ r ∈ create_semantic_layer [c3protein] [⟨"", "x", 900⟩]
          [⟨"", "y", "b"⟩], r.disease = "" ∧ r.associated_proteins = "" := by
  decide

/-- C3 amended: a protein whose string_dbReference and
opentargets_dbReference are both empty yields a SemanticRow with empty
disease and associated_proteins whenever no interaction edge has
protein1 = "" and no target has id = ""; the empty string is never treated
as a wildcard, but it does join against partners whose own key is empty. -/
theorem claim_C3_amended (edges : List InteractionEdge)
    (targets : List TargetRecord) (p : ProteinRecord)
    (h1 : p.string_dbReference = "") (h2 : p.opentargets_dbReference = "")
    (he : ∀ e ∈ edges, e.protein1 ≠ "") (ht : ∀ t ∈ targets, t.id ≠ "") :
    create_semantic_layer [p] edges targets =
      [⟨p.primary_accession, p.recommended_protein_name, p.primary_gene_name,
        p.species_common_name, "", ""⟩] := by
  have hm1 : merge1 [p]
      (edges.filter (fun e => decide (200 < e.combined_score))) =
      [⟨p, none, none, none⟩] := by
    refine merge1_no_match ?_
    intro e hef
    rw [h1]
    exact he e (List.mem_of_mem_filter hef)
  have hm2 : merge2 [(⟨p, none, none, none⟩ : Joined1)] targets =
      [⟨⟨p, none, none, none⟩, none, none, none⟩] := by
    refine merge2_no_match ?_
    intro t htm
    show t.id ≠ p.opentargets_dbReference
    rw [h2]
    exact ht t htm
  simp only [create_semantic_layer, semantic_groups, joinedRows, hm1, hm2]
  simp [dedupFirst, dedupFirstAux, keyOf2, keyOfP, aggEntries, renderRow,
    joinComma, List.filter]

/-- C3 amended, witnessed at a concrete instance: the protein with empty
keys against one ordinary edge and one ordinary target. -/
theorem claim_C3_witness :
    create_semantic_layer [c3protein] [⟨"s1", "s2", 900⟩]
        [⟨"o1", "brca1", "b"⟩] = [⟨"p3", "n", "g", "h", "", ""⟩] :=
  claim_C3_amended [⟨"s1", "s2", 900⟩] [⟨"o1", "brca1", "b"⟩] c3protein rfl
    rfl (by decide) (by decide)

/-- C4 counterexample: aggregate entry lists can contain the empty string.
With no edges and two targets (o1, "") and (o1, "x"), the protein keyed o1
gets diseaseList ["", "x"], because x.dropna() removes only nulls and the
empty approvedSymbol survives; the rendered disease field is ", x". -/
theorem counterexample_C4 :
    (∃ g ∈ semantic_groups [c4protein] [] c4targets, "" ∈ g.diseaseList) ∧
      (create_semantic_layer [c4protein] [] c4targets).map
        (fun r => r.disease) = [", x"] := by decide

/-- C4 amended: every group's disease and associated_proteins entry lists
are duplicate-free (unique keeps one copy per value, so two qualifying
edges sharing (protein1, protein2) contribute protein2 once), and a group
with no qualifying match renders the empty string, never a null or absent
value; empty-string entries, however, can occur when a matched
approvedSymbol or protein2 is itself empty. -/
theorem claim_C4_amended (prots : List ProteinRecord)
    (edges : List InteractionEdge) (targets : List TargetRecord)
    (g : SemanticAgg) (hg : g ∈ semantic_groups prots edges targets) :
    g.diseaseList.Nodup ∧ g.associatedList.Nodup ∧
      (g.diseaseList = [] → (renderRow g).disease = "") ∧
      (g.associatedList = [] → (renderRow g).associated_proteins = "") := by
  obtain ⟨hd, ha⟩ := semantic_groups_spec hg
  refine ⟨?_, ?_, ?_, ?_⟩
  · rw [hd]
    exact nodup_dedupFirst _
  · rw [ha]
    exact nodup_dedupFirst _
  · intro h0
    simp [renderRow, h0, joinComma]
  · intro h0
    simp [renderRow, h0, joinComma]

/-- C4 amended, witnessed on the end-to-end scenario group. -/
theorem claim_C4_witness :
    c2group.diseaseList.Nodup ∧ c2group.associatedList.Nodup ∧
      (c2group.diseaseList = [] → (renderRow c2group).disease = "") ∧
      (c2group.associatedList = [] →
        (renderRow c2group).associated_proteins = "") :=
  claim_C4_amended [c2protein] c2edges c2targets c2group (by decide)

/-- C5: an interaction edge reaches a group's associated_proteins entries
exactly through the combined_score > 200 filter: every entry s of every
emitted group is contributed by some edge with combined_score strictly
above 200 whose protein1 equals the string_dbReference of a protein of that
group — so an edge with combined_score at most 200 never contributes unless
a different qualifying edge carries the same protein2. -/
theorem claim_C5 (prots : List ProteinRecord) (edges : List InteractionEdge)
    (targets : List TargetRecord) (g : SemanticAgg) (s : String)
    (hg : g ∈ semantic_groups prots edges targets)
    (hs : s ∈ g.associatedList) :
    ∃ p ∈ prots, keyOfP p = keyOfAgg g ∧
      ∃ e ∈ edges, 200 < e.combined_score ∧
        e.protein1 = p.string_dbReference ∧ e.protein2 = s := by
  obtain ⟨_, ha⟩ := semantic_groups_spec hg
  rw [ha, aggEntries] at hs
  have hs2 := (mem_dedupFirst _ _).1 hs
  simp only [List.mem_filterMap, List.mem_map, id] at hs2
  obtain ⟨o, ⟨r, hr, hro⟩, ho⟩ := hs2
  subst ho
  rw [List.mem_filter] at hr
  obtain ⟨hrj, hrk⟩ := hr
  have hkey : keyOf2 r = keyOfAgg g := of_decide_eq_true hrk
  have hr1 : r.toJoined1 ∈ merge1 prots
      (edges.filter (fun e => decide (200 < e.combined_score))) :=
    mem_merge2 hrj
  obtain ⟨hp, hcase⟩ := mem_merge1 hr1
  rcases hcase with hnone | ⟨e, hef, hekey, hep2⟩
  · rw [show r.toJoined1.protein2 = r.protein2 from rfl, hro] at hnone
    exact absurd hnone (by simp)
  · rw [List.mem_filter] at hef
    obtain ⟨hee, hesc⟩ := hef
    refine ⟨r.toJoined1.toProteinRecord, hp, hkey, e, hee,
      of_decide_eq_true hesc, hekey, ?_⟩
    have : r.protein2 = some e.protein2 := hep2
    rw [hro] at this
    exact (Option.some_injective _ this).symm

/-- C5, witnessed on the end-to-end scenario: the entry "s2" of the group
for P1 traces back to the qualifying edge (s1, s2, 900). -/
theorem claim_C5_witness :
    ∃ p ∈ [c2protein], keyOfP p = keyOfAgg c2group ∧
      ∃ e ∈ c2edges, 200 < e.combined_score ∧
        e.protein1 = p.string_dbReference ∧ e.protein2 = "s2" :=
  claim_C5 [c2protein] c2edges c2targets c2group "s2" (by decide) (by decide)

/-- C6 counterexample: the output of the Normalizer can contain two records
equal in all fields. The rows [" A"] and ["a"] differ before normalization,
so drop_duplicates (which runs on the raw values) keeps both, and applymap
then maps both to ["a"]. -/
theorem counterexample_C6 :
    clean_and_normalize_data [[Value.str " A"], [Value.str "a"]] =
        [[Value.str "a"], [Value.str "a"]] ∧
      ¬ (clean_and_normalize_data
          [[Value.str " A"], [Value.str "a"]]).Nodup := by decide

/-- C6 amended: the Normalizer collapses exact duplicates of the raw
(pre-normalization) records to one — the output is the cell-normalization
image of a duplicate-free list of raw records — but records that become
equal only after trimming and lowercasing are each retained, so the output
can contain post-normalization duplicates. -/
theorem claim_C6_amended (rows : List (List Value)) :
    ∃ base : List (List Value), base.Nodup ∧
      clean_and_normalize_data rows = base.map (fun r => r.map normalizeCell) :=
  ⟨dedupFirst (rows.filter (fun r => decide (Value.null ∉ r))),
    nodup_dedupFirst _, rfl⟩

/-- C7: every record of the Normalizer output has no missing field, and is
the cell-normalization image (strings trimmed and lowercased, non-strings
unchanged, per normalizeCell) of an input record that itself had no missing
field — records with a missing value in any field are dropped whole, with
no partial imputation. -/
theorem claim_C7 (rows : List (List Value)) (r : List Value)
    (hr : r ∈ clean_and_normalize_data rows) :
    Value.null ∉ r ∧
      ∃ r0 ∈ rows, Value.null ∉ r0 ∧ r = r0.map normalizeCell := by
  simp only [clean_and_normalize_data, List.mem_map] at hr
  obtain ⟨r0, hr0, rfl⟩ := hr
  have h0 := (mem_dedupFirst _ _).1 hr0
  rw [List.mem_filter] at h0
  obtain ⟨hmem, hdec⟩ := h0
  have hnn : Value.null ∉ r0 := of_decide_eq_true hdec
  refine ⟨?_, r0, hmem, hnn, rfl⟩
  intro hc
  rw [List.mem_map] at hc
  obtain ⟨c, hcm, hce⟩ := hc
  cases c with
  | null => exact hnn hcm
  | str s => simp [normalizeCell] at hce
  | num q => simp [normalizeCell] at hce

/-- C7, witnessed: the row [" A", 5] is kept as ["a", 5] while the row
containing a null is dropped. -/
theorem claim_C7_witness :
    Value.null ∉ [Value.str "a", Value.num 5] ∧
      ∃ r0 ∈ [[Value.str " A", Value.num 5], [Value.null, Value.num 7]],
        Value.null ∉ r0 ∧
          [Value.str "a", Value.num 5] = r0.map normalizeCell :=
  claim_C7 [[Value.str " A", Value.num 5], [Value.null, Value.num 7]]
    [Value.str "a", Value.num 5] (by decide)

/-- C8: the Semantic Layer Builder is a deterministic function of the three
stored clean tables, and a run replaces only the semantic_layer table, so
running it a second time on the unchanged store reproduces the first run
exactly — the same SemanticRow list, hence the same set. -/
theorem claim_C8 (st : Store) :
    run_semantic_layer (run_semantic_layer st) = run_semantic_layer st := rfl

/-- C9: a record none of whose fields is null — in particular one whose
fields are empty strings, since Value.str "" is not Value.null — is
retained by the Normalizer: its cell-normalization image is in the output,
and the empty string normalizes to itself, so empty-string foreign keys
flow through to the stored clean tables. -/
theorem claim_C9 (rows : List (List Value)) (r : List Value)
    (hr : r ∈ rows) (hn : Value.null ∉ r) :
    r.map normalizeCell ∈ clean_and_normalize_data rows := by
  simp only [clean_and_normalize_data, List.mem_map]
  exact ⟨r, (mem_dedupFirst _ _).2
    (List.mem_filter.2 ⟨hr, decide_eq_true hn⟩), rfl⟩

/-- C9, witnessed: the all-empty-string record flows through unchanged. -/
theorem claim_C9_witness :
    [Value.str "", Value.str ""].map normalizeCell ∈
      clean_and_normalize_data [[Value.str "", Value.str ""]] :=
  claim_C9 [[Value.str "", Value.str ""]] [Value.str "", Value.str ""]
    (by decide) (by decide)

/-- C10: duplicate elimination runs on the raw field values before trimming
and lowercasing: on the input whose two rows [" A"] and ["a"] differ only in
case and whitespace, both rows are retained and the output contains two
records that are equal in all fields after normalization. -/
theorem claim_C10 :
    clean_and_normalize_data [[Value.str " A"], [Value.str "a"]] =
      [[Value.str "a"], [Value.str "a"]] := by decide

end ETL
